import Mathlib

/-!
Verification development for the vibetunnel repository slice:
the log-viewer's text-log parsing, the terminal/app preference managers,
the notification settings panel, the Swift `SessionService` wrapper, and
(modelled from the spec, because the server-side registry is not among the
visible sources) the session-registry cleanup operations.
-/

/- ===================== Definitions ===================== -/

/-- Terminal preferences record, from `TerminalPreferences` in
`src/unnamed/part_002` (numbers modelled as `Int`, the theme id as `String`). -/
structure TerminalPreferences where
  maxCols : Int
  fontSize : Int
  fitHorizontally : Bool
  theme : String
deriving DecidableEq, Repr

/-- `getMaxCols()` from `TerminalPreferencesManager` (src/unnamed/part_002). -/
def getMaxCols (p : TerminalPreferences) : Int :=
  p.maxCols

/-- `setMaxCols(maxCols)` from `TerminalPreferencesManager`:
`this.preferences.maxCols = Math.max(0, maxCols)` (the `savePreferences()`
side effect only persists the same record and is not part of the state). -/
def setMaxCols (p : TerminalPreferences) (maxCols : Int) : TerminalPreferences :=
  { p with maxCols := max 0 maxCols }

/-- `getFontSize()` from `TerminalPreferencesManager`. -/
def getFontSize (p : TerminalPreferences) : Int :=
  p.fontSize

/-- `setFontSize(fontSize)` from `TerminalPreferencesManager`:
`this.preferences.fontSize = Math.max(8, Math.min(32, fontSize))`. -/
def setFontSize (p : TerminalPreferences) (fontSize : Int) : TerminalPreferences :=
  { p with fontSize := max 8 (min 32 fontSize) }

/-- `TerminalPreferencesManager.getInstance()` (src/unnamed/part_002): the static
`instance` slot is modelled as an `Option TerminalPreferences` (the single
manager's state); `fresh` is the state the private constructor would build via
`loadPreferences()` on first construction.  Returns the instance handed to the
caller together with the updated static slot. -/
def getInstance (fresh : TerminalPreferences) (slot : Option TerminalPreferences) :
    TerminalPreferences × Option TerminalPreferences :=
  match slot with
  | some inst => (inst, some inst)
  | none => (fresh, some fresh)

/-- `SessionService.createSession` from the Swift wrapper
(src/web/src/client/components/log-viewer.ts, second document):
`do { return try await apiClient.createSession(data) } catch {
logger.error("Failed to create session: \(error)"); throw error }`.
The api call's outcome is the argument; the result carries the value
returned-or-rethrown plus the log lines emitted. -/
def SessionService.createSession (apiResult : Except String String) :
    Except String String × List String :=
  match apiResult with
  | .ok sessionId => (.ok sessionId, [])
  | .error e => (.error e, ["Failed to create session: " ++ e])

/-- The keys of the `NotificationPreferences` object used by the settings
panel (src/unnamed/part_003): the master `enabled` switch, the six per-kind
toggles and the two behavior flags. -/
inductive NotifKey where
  | enabled
  | sessionStart
  | sessionExit
  | commandError
  | commandCompletion
  | bell
  | claudeTurn
  | soundEnabled
  | vibrationEnabled
deriving DecidableEq, Repr

/-- The `NotificationPreferences` record the settings panel reads and writes. -/
structure NotificationPreferences where
  enabled : Bool
  sessionStart : Bool
  sessionExit : Bool
  commandError : Bool
  commandCompletion : Bool
  bell : Bool
  claudeTurn : Bool
  soundEnabled : Bool
  vibrationEnabled : Bool
deriving DecidableEq, Repr

/-- Reading `this.notificationPreferences[key]`. -/
def getPref (p : NotificationPreferences) : NotifKey → Bool
  | .enabled => p.enabled
  | .sessionStart => p.sessionStart
  | .sessionExit => p.sessionExit
  | .commandError => p.commandError
  | .commandCompletion => p.commandCompletion
  | .bell => p.bell
  | .claudeTurn => p.claudeTurn
  | .soundEnabled => p.soundEnabled
  | .vibrationEnabled => p.vibrationEnabled

/-- `Settings.handleNotificationPreferenceChange(key, value)`
(src/unnamed/part_003): `this.notificationPreferences =
{ ...this.notificationPreferences, [key]: value }`. -/
def handleNotificationPreferenceChange (p : NotificationPreferences)
    (key : NotifKey) (value : Bool) : NotificationPreferences :=
  match key with
  | .enabled => { p with enabled := value }
  | .sessionStart => { p with sessionStart := value }
  | .sessionExit => { p with sessionExit := value }
  | .commandError => { p with commandError := value }
  | .commandCompletion => { p with commandCompletion := value }
  | .bell => { p with bell := value }
  | .claudeTurn => { p with claudeTurn := value }
  | .soundEnabled => { p with soundEnabled := value }
  | .vibrationEnabled => { p with vibrationEnabled := value }

/-- The `renderNotificationToggle` rows produced by
`Settings.renderNotificationSettings` (src/unnamed/part_003), in source
order: six rows under "Notification Types" followed by the two rows under
"Notification Behavior".  Each row is (preference key, label). -/
def renderedNotificationToggles : List (NotifKey × String) :=
  [(.sessionExit, "Session Exit"),
   (.sessionStart, "Session Start"),
   (.commandError, "Session Errors"),
   (.commandCompletion, "Command Completion"),
   (.bell, "System Alerts"),
   (.claudeTurn, "Claude Turn"),
   (.soundEnabled, "Sound"),
   (.vibrationEnabled, "Vibration")]

/-- A dynamic JSON-ish value, for the loosely-typed preference blobs read from
`localStorage` (numbers as `Int`; nothing beyond scalar fields occurs in the
stored preference objects). -/
inductive JVal where
  | num : Int → JVal
  | jbool : Bool → JVal
  | str : String → JVal
deriving DecidableEq, Repr

/-- A dynamic JS object: association list from key to value.  `List.lookup`
(first entry wins) gives the property-access semantics. -/
abbrev JObj := List (String × JVal)

/-- JS object spread `{ ...a, ...b }`: properties of `b` override those of
`a`, and every property of `b` absent from `a` is added to the result.
Modelled as a lookup-first association list with `b`'s entries in front,
which has the same per-key content as the JS result. -/
def jsSpread (a b : JObj) : JObj :=
  b ++ a

/-- `DEFAULT_PREFERENCES` from `src/unnamed/part_002`, as the dynamic object
the spread operates on; `fontSize` depends on `detectMobile()`. -/
def terminalDefaults (isMobile : Bool) : JObj :=
  [("maxCols", JVal.num 0),
   ("fontSize", JVal.num (if isMobile then 12 else 14)),
   ("fitHorizontally", JVal.jbool false),
   ("theme", JVal.str "dracula")]

/-- `TerminalPreferencesManager.loadPreferences` (src/unnamed/part_002):
`saved` is the successfully parsed stored blob, or `none` when nothing is
stored or reading/parsing failed; on `some parsed` the result is
`{ ...DEFAULT_PREFERENCES, ...parsed }`, otherwise `{ ...DEFAULT_PREFERENCES }`. -/
def loadPreferencesObj (isMobile : Bool) (saved : Option JObj) : JObj :=
  match saved with
  | some parsed => jsSpread (terminalDefaults isMobile) parsed
  | none => terminalDefaults isMobile

/-- `DEFAULT_APP_PREFERENCES` from `src/unnamed/part_003`. -/
def appDefaults : JObj :=
  [("useDirectKeyboard", JVal.jbool true),
   ("useBinaryMode", JVal.jbool false)]

/-- The preference-merging step of `Settings.loadAppPreferences`
(src/unnamed/part_003): `this.appPreferences =
{ ...DEFAULT_APP_PREFERENCES, ...JSON.parse(stored) }` when a blob is
stored, else the defaults are kept. -/
def loadAppPreferencesObj (stored : Option JObj) : JObj :=
  match stored with
  | some parsed => jsSpread appDefaults parsed
  | none => appDefaults

/-- First-result choice on `Option`, for stating lookup behaviour of the
spread. -/
def orFirst (a b : Option JVal) : Option JVal :=
  match a with
  | some v => some v
  | none => b

/-- Session status, from the spec's data model (§3). -/
inductive SessionStatus where
  | starting
  | running
  | exited
deriving DecidableEq, Repr

/-- Registry error taxonomy relevant to cleanup (spec §7). -/
inductive CleanupError where
  | sessionStillRunning
  | notFound
deriving DecidableEq, Repr

/-- The Session Registry's bookkeeping: each live session id with its status.
Modelled from the spec: the server-side registry is not among the visible
sources (only the Swift client wrapper that forwards to it), so the registry
state is taken from spec §3/§4.3. -/
abbrev Registry := List (String × SessionStatus)

/-- Modelled from the spec: `cleanup(id)` "removes an Exited session's
bookkeeping; fails with `SessionStillRunning` if called on a non-Exited
session" (spec §4.3); an unknown id is `NotFound` (spec §7).  The server-side
implementation is not among the visible sources.  Returns the outcome and the
registry afterwards. -/
def cleanup (reg : Registry) (id : String) : Except CleanupError Unit × Registry :=
  match List.lookup id reg with
  | none => (.error .notFound, reg)
  | some st =>
    if st = .exited then (.ok (), List.filter (fun p => p.1 != id) reg)
    else (.error .sessionStillRunning, reg)

/-- Modelled from the spec: `cleanupAllExited()` "returns the list of ids
actually removed" (spec §4.3) — it removes every Exited session's bookkeeping
and returns those ids; non-Exited sessions stay.  The server-side
implementation is not among the visible sources; the Swift wrapper
`SessionService.cleanupAllExitedSessions` only forwards the call. -/
def cleanupAllExited (reg : Registry) : List String × Registry :=
  ((List.filter (fun p => p.2 == SessionStatus.exited) reg).map Prod.fst,
   List.filter (fun p => p.2 != SessionStatus.exited) reg)

/-- The JS regex whitespace class `\s` (which is also the character set
removed by `String.prototype.trim`): space, tab, LF, VT, FF, CR, NBSP, and
the Unicode space separators, line separator, paragraph separator and BOM. -/
def jsSpace (c : Char) : Bool :=
  c == ' ' || c == '\t' || c == '\n' || c == '\x0B' || c == '\x0C' || c == '\r' ||
  c == '\u00A0' || c == '\u1680' ||
  (decide (0x2000 ≤ c.toNat) && decide (c.toNat ≤ 0x200A)) ||
  c == '\u2028' || c == '\u2029' || c == '\u202F' || c == '\u205F' ||
  c == '\u3000' || c == '\uFEFF'

/-- The JS regex `.` without the `s` flag: any character except the line
terminators LF, CR, LS, PS. -/
def jsDot (c : Char) : Bool :=
  !(c == '\n' || c == '\r' || c == '\u2028' || c == '\u2029')

/-- A maximal nonempty run matched by a greedy `\S+`: the run and the
remainder, or `none` when the input is empty or starts with whitespace. -/
def takeTok (cs : List Char) : Option (List Char × List Char) :=
  if (cs.takeWhile (fun c => !jsSpace c)).isEmpty then none
  else some (cs.takeWhile (fun c => !jsSpace c), cs.dropWhile (fun c => !jsSpace c))

/-- A maximal nonempty run matched by a greedy `\s+`; returns the remainder,
or `none` when the input is empty or starts with a non-whitespace character. -/
def takeSpaces (cs : List Char) : Option (List Char) :=
  if (cs.takeWhile jsSpace).isEmpty then none
  else some (cs.dropWhile jsSpace)

/-- The bracketed tail `\[([^\]]+)\]\s+(.*)$` of the log-entry head regex,
applied after the two tokens: expects `[`, the nonempty module capture (the
run up to the first `]`, which `[^\]]+` cannot cross), `]`, at least one
whitespace character, and a message in which every character is matched by
`.` (otherwise `$` cannot be reached); assembles the four captures. -/
def parseBracket (t1 t2 r4 : List Char) : Option (String × String × String × String) :=
  match r4 with
  | [] => none
  | c :: r5 =>
    if c = '[' then
      match r5.dropWhile (fun x => x != ']') with
      | [] => none
      | d :: r7 =>
        if d = ']' then
          if (r5.takeWhile (fun x => x != ']')).isEmpty then none
          else
            (takeSpaces r7).bind fun ms =>
              if ms.all jsDot then
                some (String.mk t1, String.mk t2,
                  String.mk (r5.takeWhile (fun x => x != ']')), String.mk ms)
              else none
        else none
    else none

/-- The log-entry head match of `parseLogs`
(src/web/src/client/components/log-viewer.ts):
`line.match(/^(\S+)\s+(\S+)\s+\[([^\]]+)\]\s+(.*)$/)`, returning the
captures (timestamp, level, module, message) when the line matches.  Every
piece of the anchored regex is forced, so the match is this deterministic
function: each greedy `(\S+)` must be a maximal non-whitespace run (any
shorter nonempty prefix is followed by a non-whitespace character, on which
the following `\s+` fails), each `\s+` must be a maximal whitespace run (the
`\S`/`[` required next is not whitespace), `([^\]]+)` is the run up to the
first `]`, and after the final greedy `\s+` the trailing `(.*)$` succeeds
exactly when no line-terminator character remains in the message (`.`
matches everything else, `$` only matches at the end of the string, and a
line terminator later in the remainder also defeats every shorter `\s+`
split); when the greedy decomposition fails, every backtracking alternative
fails at the same or an earlier piece. -/
def parseLine (line : String) : Option (String × String × String × String) :=
  (takeTok line.data).bind fun p1 =>
    (takeSpaces p1.2).bind fun r2 =>
      (takeTok r2).bind fun p2 =>
        (takeSpaces p2.2).bind fun r4 =>
          parseBracket p1.1 p2.1 r4

/-- `text.split('\n')` as used by `parseLogs`: split at every newline,
keeping empty segments (including a leading/trailing one). -/
def splitLines : List Char → List (List Char)
  | [] => [[]]
  | c :: rest =>
    if c = '\n' then [] :: splitLines rest
    else
      match splitLines rest with
      | l :: ls => (c :: l) :: ls
      | [] => [[c]]

/-- The skip test `if (!line.trim()) continue` of `parseLogs`: a line is
skipped exactly when it is empty or whitespace-only. -/
def blankLine (line : String) : Bool :=
  line.data.all jsSpace

/-- One parsed log entry (`LogEntry`,
src/web/src/client/components/log-viewer.ts lines 6-12). -/
structure LogEntry where
  timestamp : String
  level : String
  module : String
  message : String
  isClient : Bool
deriving DecidableEq, Repr

/-- ASCII lowercasing of one character, as `toLowerCase` acts on the
characters occurring in a log level (the capture is `\S+`, so the preceding
`trim()` is the identity). -/
def jsToLower (c : Char) : Char :=
  if 'A' ≤ c ∧ c ≤ 'Z' then Char.ofNat (c.toNat + 32) else c

/-- `module.startsWith('CLIENT:')` on the module capture. -/
def listStartsWith : List Char → List Char → Bool
  | _, [] => true
  | [], _ :: _ => false
  | a :: as, b :: bs => a == b && listStartsWith as bs

/-- Whether the module capture has the `CLIENT:` marker. -/
def isClientModule (md : String) : Bool :=
  listStartsWith md.data "CLIENT:".data

/-- The entry built from a matched head line (the `match` branch of
`parseLogs`): level lowercased, a `CLIENT:`-prefixed module marking a
client-origin entry and stored with its first 7 characters
(`'CLIENT:'.length`) removed via `module.substring(7)`. -/
def mkEntry (g : String × String × String × String) : LogEntry :=
  { timestamp := g.1
    level := String.mk (g.2.1.data.map jsToLower)
    module := if isClientModule g.2.2.1 then String.mk (g.2.2.1.data.drop 7) else g.2.2.1
    message := g.2.2.2
    isClient := isClientModule g.2.2.1 }

/-- The entry created for an unparseable line when no current log exists
(the final `else` branch of `parseLogs`). -/
def orphanEntry (line : String) : LogEntry :=
  { timestamp := ""
    level := "log"
    module := "unknown"
    message := line
    isClient := false }

/-- A continuation line: `currentLog.message += '\n' + line`. -/
def appendCont (c : LogEntry) (line : String) : LogEntry :=
  { c with message := c.message ++ "\n" ++ line }

/-- The loop of `parseLogs` over the split lines, carrying `currentLog` as
`cur`; the pending current log is pushed after the loop. -/
def parseLines : List String → Option LogEntry → List LogEntry
  | [], cur => cur.toList
  | line :: rest, cur =>
    if blankLine line then parseLines rest cur
    else
      match parseLine line with
      | some g => cur.toList ++ parseLines rest (some (mkEntry g))
      | none =>
        match cur with
        | some c => parseLines rest (some (appendCont c line))
        | none => orphanEntry line :: parseLines rest none

/-- `LogViewer.parseLogs(text)`
(src/web/src/client/components/log-viewer.ts lines 117-163). -/
def parseLogs (text : String) : List LogEntry :=
  parseLines ((splitLines text.data).map String.mk) none

/-- The head-line captures of every line of a text, in order. -/
def matchGroups (text : String) : List (String × String × String × String) :=
  ((splitLines text.data).map String.mk).filterMap parseLine

/-- The lines before the first head line that are neither blank nor head
lines themselves — the lines the parser turns into orphan entries. -/
def leadOrphanLines (lines : List String) : List String :=
  (lines.takeWhile (fun l => (parseLine l).isNone)).filter (fun l => !blankLine l)

/-- `leadOrphanLines` of a full text's lines. -/
def orphanLines (text : String) : List String :=
  leadOrphanLines ((splitLines text.data).map String.mk)

/-- The entries of a parse that came from head lines: a head-line entry
carries the (nonempty) timestamp capture, an orphan entry carries `""`. -/
def headerEntries (es : List LogEntry) : List LogEntry :=
  es.filter (fun e => e.timestamp != "")

/-- Correspondence between a produced entry and the head-line captures it
came from: the timestamp capture (nonempty), the lowercased level capture,
the `CLIENT:` test and marker removal on the module capture, and a message
that is the message capture, possibly extended by newline-separated
continuation lines. -/
def entryMatchesGroups (e : LogEntry) (g : String × String × String × String) : Prop :=
  e.timestamp = g.1 ∧
  e.timestamp ≠ "" ∧
  e.level = String.mk (g.2.1.data.map jsToLower) ∧
  e.isClient = isClientModule g.2.2.1 ∧
  e.module = (if isClientModule g.2.2.1 then String.mk (g.2.2.1.data.drop 7) else g.2.2.1) ∧
  (e.message = g.2.2.2 ∨ ∃ r, e.message = g.2.2.2 ++ "\n" ++ r)

/-- The pending current log paired with the captures it stems from. -/
def curMatches : Option LogEntry → List (String × String × String × String) → Prop
  | none, [] => True
  | some c, [g] => entryMatchesGroups c g
  | _, _ => False

/- ===================== Theorems ===================== -/

/-- Lookup in an appended association list: the front list wins. -/
theorem lookup_append (a b : JObj) (k : String) :
    List.lookup k (a ++ b : JObj) = orFirst (List.lookup k a) (List.lookup k b) := by
  induction a with
  | nil => simp [orFirst]
  | cons p a ih =>
    by_cases h : k = p.1
    · simp [List.lookup, h, orFirst]
    · have hb : (k == p.1) = false := by simp [h]
      simp [List.lookup, hb, ih]

/-- C9: after `setMaxCols(x)`, `getMaxCols()` returns `max 0 x`; after
`setFontSize(x)`, `getFontSize()` returns `min 32 (max 8 x)` (the code computes
`max 8 (min 32 x)`, which coincides); each setter leaves every other
terminal-preference field unchanged. -/
theorem setters_clamp_and_are_local (p : TerminalPreferences) (x : Int) :
    getMaxCols (setMaxCols p x) = max 0 x ∧
    getFontSize (setFontSize p x) = min 32 (max 8 x) ∧
    (setMaxCols p x).fontSize = p.fontSize ∧
    (setMaxCols p x).fitHorizontally = p.fitHorizontally ∧
    (setMaxCols p x).theme = p.theme ∧
    (setFontSize p x).maxCols = p.maxCols ∧
    (setFontSize p x).fitHorizontally = p.fitHorizontally ∧
    (setFontSize p x).theme = p.theme := by
  refine ⟨rfl, ?_, rfl, rfl, rfl, rfl, rfl, rfl⟩
  show max 8 (min 32 x) = min 32 (max 8 x)
  rw [max_min_distrib_left]
  norm_num

/-- C10: `getInstance()` is idempotent: a second call returns the same
instance and leaves the static slot unchanged, and the slot holds exactly the
instance every caller receives, so all callers share one preferences state. -/
theorem getInstance_idempotent (fresh : TerminalPreferences)
    (slot : Option TerminalPreferences) :
    (getInstance fresh (getInstance fresh slot).2).1 = (getInstance fresh slot).1 ∧
    (getInstance fresh (getInstance fresh slot).2).2 = (getInstance fresh slot).2 ∧
    (getInstance fresh slot).2 = some (getInstance fresh slot).1 := by
  cases slot <;> simp [getInstance]

/-- C6: `SessionService.createSession` returns the api client's outcome
unchanged — the session id on success, the same error rethrown on failure —
and it logs exactly when the call failed. -/
theorem createSession_propagates (apiResult : Except String String) :
    (SessionService.createSession apiResult).1 = apiResult ∧
    ((SessionService.createSession apiResult).2 = [] ↔
      ∃ sessionId, apiResult = .ok sessionId) := by
  cases apiResult <;> simp [SessionService.createSession]

/-- C7: the settings panel renders exactly the per-kind toggles
`sessionStart`, `sessionExit`, `commandError`, `commandCompletion`, `bell`,
`claudeTurn` plus the behavior flags `soundEnabled` and `vibrationEnabled`
(and no others, in particular not the master `enabled` switch, which has its
own dedicated control); and changing one preference key sets exactly that key
and leaves every other key unchanged. -/
theorem notification_gate_toggles (p : NotificationPreferences)
    (k k2 : NotifKey) (v : Bool) :
    ((k ∈ renderedNotificationToggles.map Prod.fst) ↔
      (k = .sessionStart ∨ k = .sessionExit ∨ k = .commandError ∨
       k = .commandCompletion ∨ k = .bell ∨ k = .claudeTurn ∨
       k = .soundEnabled ∨ k = .vibrationEnabled)) ∧
    getPref (handleNotificationPreferenceChange p k v) k2 =
      (if k2 = k then v else getPref p k2) := by
  constructor
  · cases k <;> simp [renderedNotificationToggles]
  · cases k <;> cases k2 <;>
      simp [getPref, handleNotificationPreferenceChange]

/-- C3 counterexample: loading a stored blob with a field unknown to the
configuration structure carries that field into the resulting preferences
object — the JS spread `{ ...defaults, ...parsed }` copies every stored
property, so unknown fields are not ignored, refuting the claim at the
concrete blob `{"junk": 7}` for both loaders. -/
theorem unknown_field_is_carried :
    List.lookup "junk" (loadPreferencesObj false (some [("junk", JVal.num 7)])) =
      some (JVal.num 7) ∧
    List.lookup "junk" (loadAppPreferencesObj (some [("junk", JVal.num 7)])) =
      some (JVal.num 7) := by
  constructor <;> rfl

/-- C3 amended: when a stored preference blob is loaded, each key of the
result is the stored value when present and the default value otherwise —
fields missing from the stored blob take their defaults, stored fields
(including fields unknown to the configuration structure, which are carried
along rather than dropped) override them; with no stored blob the defaults
are used as-is.  Holds for both the terminal and the app preference loader. -/
theorem load_preferences_merge_rule (isMobile : Bool) (parsed : JObj) (k : String) :
    List.lookup k (loadPreferencesObj isMobile (some parsed)) =
      orFirst (List.lookup k parsed) (List.lookup k (terminalDefaults isMobile)) ∧
    List.lookup k (loadAppPreferencesObj (some parsed)) =
      orFirst (List.lookup k parsed) (List.lookup k appDefaults) ∧
    loadPreferencesObj isMobile none = terminalDefaults isMobile ∧
    loadAppPreferencesObj none = appDefaults := by
  exact ⟨lookup_append parsed (terminalDefaults isMobile) k,
         lookup_append parsed appDefaults k, rfl, rfl⟩

/-- C4: `cleanup(id)` on a session whose status is not Exited fails with
`SessionStillRunning` and leaves the registry unchanged. -/
theorem cleanup_refuses_non_exited (reg : Registry) (id : String)
    (st : SessionStatus) (hlook : List.lookup id reg = some st)
    (hst : st ≠ SessionStatus.exited) :
    cleanup reg id = (.error .sessionStillRunning, reg) := by
  simp [cleanup, hlook, hst]

/-- C4 witness: a registry holding one Running session refuses cleanup and is
unchanged. -/
theorem cleanup_refuses_non_exited_witness :
    cleanup [("s1", SessionStatus.running)] "s1" =
      (.error .sessionStillRunning, [("s1", SessionStatus.running)]) :=
  cleanup_refuses_non_exited _ _ SessionStatus.running (by decide) (by decide)

/-- Association-list lookup misses when the key is absent. -/
theorem lookup_eq_none_of_not_mem_keys (l : Registry) (id : String)
    (h : id ∉ l.map Prod.fst) : List.lookup id l = none := by
  induction l with
  | nil => rfl
  | cons p l ih =>
    simp only [List.map_cons, List.mem_cons] at h
    push_neg at h
    have hne : (id == p.1) = false := by simp [h.1]
    simp [List.lookup, hne, ih h.2]

/-- C5: `cleanupAllExited` returns exactly the ids it removed: for a registry
with distinct ids, an id is in the returned list iff it was present before
the call and is absent from the registry afterwards. -/
theorem cleanupAllExited_returns_removed (reg : Registry)
    (hnd : (reg.map Prod.fst).Nodup) (id : String) :
    id ∈ (cleanupAllExited reg).1 ↔
      ((∃ st, List.lookup id reg = some st) ∧
        List.lookup id (cleanupAllExited reg).2 = none) := by
  induction reg with
  | nil => simp [cleanupAllExited]
  | cons p reg ih =>
    simp only [List.map_cons, List.nodup_cons] at hnd
    obtain ⟨hp, hnd2⟩ := hnd
    by_cases he : p.2 = SessionStatus.exited
    · have h1 : (cleanupAllExited (p :: reg)).1 = p.1 :: (cleanupAllExited reg).1 := by
        simp [cleanupAllExited, List.filter_cons, he]
      have h2 : (cleanupAllExited (p :: reg)).2 = (cleanupAllExited reg).2 := by
        simp [cleanupAllExited, List.filter_cons, he]
      by_cases hid : id = p.1
      · subst hid
        rw [h1, h2]
        have hnone : List.lookup p.1 (cleanupAllExited reg).2 = none := by
          apply lookup_eq_none_of_not_mem_keys
          intro hmem
          exact hp (List.map_subset Prod.fst ((List.filter_sublist _).subset) hmem)
        simp [List.lookup, hnone]
      · have hne : (id == p.1) = false := by simp [hid]
        rw [h1, h2, List.mem_cons]
        simp only [hid, false_or]
        rw [ih hnd2]
        simp [List.lookup, hne]
    · have h1 : (cleanupAllExited (p :: reg)).1 = (cleanupAllExited reg).1 := by
        simp [cleanupAllExited, List.filter_cons, he]
      have h2 : (cleanupAllExited (p :: reg)).2 = p :: (cleanupAllExited reg).2 := by
        simp [cleanupAllExited, List.filter_cons, he]
      by_cases hid : id = p.1
      · subst hid
        rw [h1, h2]
        constructor
        · intro hmem
          exact absurd (List.map_subset Prod.fst ((List.filter_sublist _).subset) hmem) hp
        · rintro ⟨-, habs⟩
          simp [List.lookup] at habs
      · have hne : (id == p.1) = false := by simp [hid]
        rw [h1, h2, ih hnd2]
        simp [List.lookup, hne]

/-- C5 witness: on a registry with one Exited and one Running session, the
Exited id is reported removed. -/
theorem cleanupAllExited_returns_removed_witness :
    "a" ∈ (cleanupAllExited [("a", SessionStatus.exited), ("b", SessionStatus.running)]).1 ↔
      ((∃ st, List.lookup "a" [("a", SessionStatus.exited), ("b", SessionStatus.running)] = some st) ∧
        List.lookup "a"
          (cleanupAllExited [("a", SessionStatus.exited), ("b", SessionStatus.running)]).2 = none) :=
  cleanupAllExited_returns_removed _ (by decide) "a"

/-- A successful `\S+` match is a nonempty run. -/
theorem takeTok_ne (cs t r : List Char) (h : takeTok cs = some (t, r)) : t ≠ [] := by
  unfold takeTok at h
  split at h
  · exact absurd h (by simp)
  next hne =>
    simp only [Option.some.injEq, Prod.mk.injEq] at h
    obtain ⟨rfl, -⟩ := h
    simpa [List.isEmpty_iff] using hne

/-- The first capture assembled by `parseBracket` is the first token. -/
theorem parseBracket_ts (t1 t2 r4 : List Char) (g : String × String × String × String)
    (h : parseBracket t1 t2 r4 = some g) : g.1 = String.mk t1 := by
  unfold parseBracket at h
  split at h
  · exact absurd h (by simp)
  · split at h
    · split at h
      · exact absurd h (by simp)
      · split at h
        · split at h
          · exact absurd h (by simp)
          · simp only [Option.bind_eq_some] at h
            obtain ⟨ms, -, hif⟩ := h
            split at hif
            · simp only [Option.some.injEq] at hif
              rw [← hif]
            · exact absurd hif (by simp)
        · exact absurd h (by simp)
    · exact absurd h (by simp)

/-- A matched head line has a nonempty timestamp capture. -/
theorem parseLine_ts_ne (line : String) (g : String × String × String × String)
    (h : parseLine line = some g) : g.1 ≠ "" := by
  unfold parseLine at h
  simp only [Option.bind_eq_some] at h
  obtain ⟨p1, h1, r2, -, p2, -, r4, -, hbr⟩ := h
  have ht1 : p1.1 ≠ [] := by
    obtain ⟨t1, r1⟩ := p1
    exact takeTok_ne _ _ _ h1
  rw [parseBracket_ts _ _ _ _ hbr]
  intro hcontra
  exact ht1 (congrArg String.data hcontra)

/-- A blank (whitespace-only or empty) line matches no entry head: its first
character already defeats the leading `\S+`. -/
theorem blankLine_no_head (line : String) (hb : blankLine line = true) :
    parseLine line = none := by
  have htw : line.data.takeWhile (fun c => !jsSpace c) = [] := by
    cases hd : line.data with
    | nil => rfl
    | cons c cs =>
      have hc : jsSpace c = true := by
        unfold blankLine at hb
        rw [hd] at hb
        simp only [List.all_cons, Bool.and_eq_true] at hb
        exact hb.1
      simp [List.takeWhile_cons, hc]
  have htk : takeTok line.data = none := by
    unfold takeTok
    rw [htw]
    rfl
  unfold parseLine
  rw [htk]
  rfl

/-- The entry built from a head-line match corresponds to its captures. -/
theorem mkEntry_rel (line : String) (g : String × String × String × String)
    (h : parseLine line = some g) : entryMatchesGroups (mkEntry g) g :=
  ⟨rfl, parseLine_ts_ne line g h, rfl, rfl, rfl, Or.inl rfl⟩

/-- Appending a continuation line preserves the correspondence with the
originating head-line captures. -/
theorem appendCont_rel (c : LogEntry) (line : String)
    (g : String × String × String × String) (h : entryMatchesGroups c g) :
    entryMatchesGroups (appendCont c line) g := by
  obtain ⟨h1, h2, h3, h4, h5, h6⟩ := h
  refine ⟨h1, h2, h3, h4, h5, Or.inr ?_⟩
  have hmsg : (appendCont c line).message = c.message ++ "\n" ++ line := rfl
  rcases h6 with h6 | ⟨r, h6⟩
  · exact ⟨line, by rw [hmsg, h6]⟩
  · exact ⟨r ++ ("\n" ++ line), by simp [hmsg, h6, String.append_assoc]⟩

/-- `headerEntries` distributes over append. -/
theorem headerEntries_append (a b : List LogEntry) :
    headerEntries (a ++ b) = headerEntries a ++ headerEntries b :=
  List.filter_append _ _

/-- Main invariant of the `parseLogs` loop: the entries coming from head
lines correspond, in order, to the head-line captures of the remaining
lines, preceded by the captures of the pending current log. -/
theorem parseLines_headerEntries (lines : List String) :
    ∀ (cur : Option LogEntry) (gs : List (String × String × String × String)),
      curMatches cur gs →
      List.Forall₂ entryMatchesGroups (headerEntries (parseLines lines cur))
        (gs ++ lines.filterMap parseLine) := by
  induction lines with
  | nil =>
    intro cur gs hc
    cases cur with
    | none =>
      cases gs with
      | nil => simp [parseLines, headerEntries]
      | cons g gs2 => exact hc.elim
    | some c =>
      cases gs with
      | nil => exact hc.elim
      | cons g gs2 =>
        cases gs2 with
        | cons g2 gs3 => exact hc.elim
        | nil =>
          have hc2 : entryMatchesGroups c g := hc
          have hout : headerEntries (parseLines [] (some c)) = [c] := by
            simp [parseLines, headerEntries, List.filter_cons, bne_iff_ne, hc2.2.1]
          rw [hout]
          simpa using List.Forall₂.cons hc2 List.Forall₂.nil
  | cons line rest ih =>
    intro cur gs hc
    by_cases hb : blankLine line = true
    · have hpl : parseLine line = none := blankLine_no_head line hb
      have hstep : parseLines (line :: rest) cur = parseLines rest cur := by
        simp [parseLines, hb]
      have hfm : (line :: rest).filterMap parseLine = rest.filterMap parseLine := by
        simp [List.filterMap_cons, hpl]
      rw [hstep, hfm]
      exact ih cur gs hc
    · replace hb : blankLine line = false := by simpa using hb
      cases hpl : parseLine line with
      | some gNew =>
        have hstep : parseLines (line :: rest) cur =
            cur.toList ++ parseLines rest (some (mkEntry gNew)) := by
          simp [parseLines, hb, hpl]
        have hfm : (line :: rest).filterMap parseLine =
            gNew :: rest.filterMap parseLine := by
          simp [List.filterMap_cons, hpl]
        have htail := ih (some (mkEntry gNew)) [gNew] (mkEntry_rel line gNew hpl)
        rw [hstep, hfm, headerEntries_append]
        cases cur with
        | none =>
          cases gs with
          | cons g gs2 => exact hc.elim
          | nil => simpa [headerEntries] using htail
        | some c =>
          cases gs with
          | nil => exact hc.elim
          | cons g gs2 =>
            cases gs2 with
            | cons g2 gs3 => exact hc.elim
            | nil =>
              have hc2 : entryMatchesGroups c g := hc
              have hone : headerEntries (Option.toList (some c)) = [c] := by
                simp [headerEntries, List.filter_cons, bne_iff_ne, hc2.2.1]
              rw [hone]
              simp only [List.cons_append, List.nil_append, List.singleton_append]
              exact List.Forall₂.cons hc2 (by simpa using htail)
      | none =>
        cases cur with
        | some c =>
          cases gs with
          | nil => exact hc.elim
          | cons g gs2 =>
            cases gs2 with
            | cons g2 gs3 => exact hc.elim
            | nil =>
              have hc2 : entryMatchesGroups c g := hc
              have hstep : parseLines (line :: rest) (some c) =
                  parseLines rest (some (appendCont c line)) := by
                simp [parseLines, hb, hpl]
              have hfm : (line :: rest).filterMap parseLine = rest.filterMap parseLine := by
                simp [List.filterMap_cons, hpl]
              rw [hstep, hfm]
              exact ih (some (appendCont c line)) [g] (appendCont_rel c line g hc2)
        | none =>
          cases gs with
          | cons g gs2 => exact hc.elim
          | nil =>
            have hstep : parseLines (line :: rest) none =
                orphanEntry line :: parseLines rest none := by
              simp [parseLines, hb, hpl]
            have hfm : (line :: rest).filterMap parseLine = rest.filterMap parseLine := by
              simp [List.filterMap_cons, hpl]
            have hdrop : headerEntries (orphanEntry line :: parseLines rest none) =
                headerEntries (parseLines rest none) := by
              simp [headerEntries, List.filter_cons, orphanEntry]
            rw [hstep, hfm, hdrop]
            exact ih none [] True.intro

/-- Orphan invariant of the `parseLogs` loop: with a pending current log no
further orphan entries arise; without one, the orphan entries are exactly
those for the leading non-blank unparseable lines. -/
theorem parseLines_orphans (lines : List String) :
    ∀ (cur : Option LogEntry), (∀ c0, cur = some c0 → c0.timestamp ≠ "") →
      (parseLines lines cur).filter (fun e => e.timestamp == "") =
        (match cur with
         | none => (leadOrphanLines lines).map orphanEntry
         | some _ => ([] : List LogEntry)) := by
  induction lines with
  | nil =>
    intro cur hcur
    cases cur with
    | none => simp [parseLines, leadOrphanLines]
    | some c =>
      have hts := hcur c rfl
      simp [parseLines, List.filter_cons, beq_iff_eq, hts]
  | cons line rest ih =>
    intro cur hcur
    by_cases hb : blankLine line = true
    · have hpl : parseLine line = none := blankLine_no_head line hb
      have hstep : parseLines (line :: rest) cur = parseLines rest cur := by
        simp [parseLines, hb]
      rw [hstep, ih cur hcur]
      cases cur with
      | some c => rfl
      | none => simp [leadOrphanLines, List.takeWhile_cons, hpl, List.filter_cons, hb]
    · replace hb : blankLine line = false := by simpa using hb
      cases hpl : parseLine line with
      | some gNew =>
        have hstep : parseLines (line :: rest) cur =
            cur.toList ++ parseLines rest (some (mkEntry gNew)) := by
          simp [parseLines, hb, hpl]
        have hts : (mkEntry gNew).timestamp ≠ "" := parseLine_ts_ne line gNew hpl
        have htail : (parseLines rest (some (mkEntry gNew))).filter
            (fun e => e.timestamp == "") = [] := by
          apply ih (some (mkEntry gNew))
          intro c0 hc0
          injection hc0 with h2
          rw [← h2]
          exact hts
        rw [hstep, List.filter_append, htail, List.append_nil]
        cases cur with
        | some c =>
          have hts2 := hcur c rfl
          simp [List.filter_cons, beq_iff_eq, hts2]
        | none => simp [leadOrphanLines, List.takeWhile_cons, hpl]
      | none =>
        cases cur with
        | some c =>
          have hstep : parseLines (line :: rest) (some c) =
              parseLines rest (some (appendCont c line)) := by
            simp [parseLines, hb, hpl]
          have hcur2 : ∀ c0, some (appendCont c line) = some c0 → c0.timestamp ≠ "" := by
            intro c0 hc0
            injection hc0 with h2
            rw [← h2]
            exact hcur c rfl
          rw [hstep]
          exact ih (some (appendCont c line)) hcur2
        | none =>
          have hstep : parseLines (line :: rest) none =
              orphanEntry line :: parseLines rest none := by
            simp [parseLines, hb, hpl]
          have htail : (parseLines rest none).filter (fun e => e.timestamp == "") =
              (leadOrphanLines rest).map orphanEntry :=
            ih none (by intro c0 hc0; exact Option.noConfusion hc0)
          rw [hstep]
          simp [List.filter_cons, orphanEntry, htail, leadOrphanLines,
            List.takeWhile_cons, hpl, hb]

/-- Every parsed entry is a head-line entry or an orphan entry. -/
theorem length_filter_partition (es : List LogEntry) :
    (es.filter (fun e => e.timestamp != "")).length +
      (es.filter (fun e => e.timestamp == "")).length = es.length := by
  induction es with
  | nil => rfl
  | cons e es ih =>
    by_cases h : e.timestamp = ""
    · simp [List.filter_cons, h]
      omega
    · simp [List.filter_cons, h]
      omega

/-- The parse produces exactly one entry per head line plus one per leading
non-blank unparseable line. -/
theorem parseLogs_len (text : String) :
    (parseLogs text).length = (matchGroups text).length + (orphanLines text).length := by
  have hpart := length_filter_partition (parseLogs text)
  have hhead := (parseLines_headerEntries ((splitLines text.data).map String.mk) none []
      True.intro).length_eq
  have h1 : ((parseLogs text).filter (fun e => e.timestamp != "")).length
      = (matchGroups text).length := by
    simpa [headerEntries, parseLogs, matchGroups] using hhead
  have horph : (parseLines ((splitLines text.data).map String.mk) none).filter
      (fun e => e.timestamp == "") =
      (leadOrphanLines ((splitLines text.data).map String.mk)).map orphanEntry :=
    parseLines_orphans _ none (by intro c0 hc0; exact Option.noConfusion hc0)
  have h2 : ((parseLogs text).filter (fun e => e.timestamp == "")).length
      = (orphanLines text).length := by
    rw [show parseLogs text = parseLines ((splitLines text.data).map String.mk) none
        from rfl, horph]
    simp [orphanLines]
  omega

/-- C1: for every input text, `parseLogs` turns each line matching the entry
head `<timestamp> <level> [<module>] <message>` into exactly one log entry,
in order: the timestamp is the first capture, the level is the lowercased
second capture, the entry is marked client-origin exactly when the module
capture starts with `CLIENT:` (the stored module then has that marker
stripped), every other matching line yields a server-origin entry with the
module stored verbatim, and the message is the message capture (possibly
extended by newline-joined continuation lines, per the continuation rule). -/
theorem parseLogs_head_line_entries (text : String) :
    List.Forall₂ entryMatchesGroups (headerEntries (parseLogs text)) (matchGroups text) := by
  have h := parseLines_headerEntries ((splitLines text.data).map String.mk) none [] True.intro
  simpa [parseLogs, matchGroups] using h

/-- C8 counterexample: the whitespace-only line `" "` is a non-empty line
matching no entry head with no preceding entry, yet `parseLogs` drops it
(the `if (!line.trim()) continue` skip) instead of making it its own entry. -/
theorem whitespace_only_orphan_dropped :
    " " ≠ "" ∧ parseLine " " = none ∧ parseLogs " " = [] :=
  ⟨by decide, by decide, by decide⟩

/-- C8 amended: a line containing a non-whitespace character that matches no
entry head and comes before every head line is never dropped: the parse's
orphan entries (those with empty timestamp) are exactly one entry per such
line, in order, with empty timestamp, level `log`, module `unknown`, the raw
line as message, and server-origin marking; whitespace-only lines, however,
are skipped. -/
theorem parseLogs_orphan_entries (text : String) :
    (parseLogs text).filter (fun e => e.timestamp == "") =
      (orphanLines text).map (fun line =>
        { timestamp := "", level := "log", module := "unknown",
          message := line, isClient := false }) :=
  parseLines_orphans ((splitLines text.data).map String.mk) none
    (by intro c0 hc0; exact Option.noConfusion hc0)

/-- C2 counterexample: a non-empty line that matches no entry head and
follows an already-parsed entry is not always merged into it — the
whitespace-only line `" "` after a parsed entry is skipped rather than
appended to its message, and `"bar"` after the already-parsed orphan entry
for `"foo"` starts a new orphan entry of its own instead of being merged. -/
theorem continuation_claim_counterexample :
    (" " ≠ "" ∧ parseLine " " = none ∧
      parseLogs "a b [m] hi\n " =
        [{ timestamp := "a", level := "b", module := "m",
           message := "hi", isClient := false }]) ∧
    ("bar" ≠ "" ∧ parseLine "bar" = none ∧
      parseLogs "foo\nbar" =
        [{ timestamp := "", level := "log", module := "unknown",
           message := "foo", isClient := false },
         { timestamp := "", level := "log", module := "unknown",
           message := "bar", isClient := false }]) :=
  ⟨⟨by decide, by decide, by decide⟩, ⟨by decide, by decide, by decide⟩⟩

/-- C2 amended: a line that is non-blank (contains a non-whitespace
character), matches no entry head, and follows a pending entry created from
a head line is merged into that entry by appending a newline plus the line
to its message, and creates no entry of its own; globally the parse produces
exactly one entry per head line plus one per leading non-blank unparseable
line, so continuation lines never add entries. -/
theorem continuation_lines_merge (line : String) (rest : List String)
    (c : LogEntry) (text : String)
    (hb : blankLine line = false) (hpl : parseLine line = none) :
    parseLines (line :: rest) (some c) =
      parseLines rest (some (appendCont c line)) ∧
    (parseLogs text).length = (matchGroups text).length + (orphanLines text).length := by
  constructor
  · simp [parseLines, hb, hpl]
  · exact parseLogs_len text

/-- C2 amended, witness: a concrete continuation step and the entry count on
a concrete text. -/
theorem continuation_lines_merge_witness :
    parseLines ["tail line"]
        (some (LogEntry.mk "a" "b" "m" "hi" false)) =
      parseLines []
        (some (appendCont (LogEntry.mk "a" "b" "m" "hi" false) "tail line")) ∧
    (parseLogs "x y [m] z").length =
      (matchGroups "x y [m] z").length + (orphanLines "x y [m] z").length :=
  continuation_lines_merge "tail line" [] (LogEntry.mk "a" "b" "m" "hi" false)
    "x y [m] z" (by decide) (by decide)
